import Mathlib

/-!
Verification development for the icu-note-copilot clinical RAG pipeline.

Shallow embedding of the core pipeline modules:
  ingest/ingest_csv.py       (chunk_text, process_csv_row id scheme)
  ingest/validate.py         (ensure_unique_ids)
  rag/index_build.py         (build_evidence_corpus)
  scripts/build_evidence_store.py
  rag/retrieve.py            (HybridRetriever.hybrid_search)
  rag/soap_retrieval.py      (SOAPRetriever.filter_by_row)
  llm/client.py              (estimate_tokens, truncate_to_token_limit, OllamaClient.generate)
  pipeline/validate_outputs.py  (validate_differential)
  pipeline/differential_cleanup.py (run_all_cleanups)
  pipeline/quality_gate.py   (evaluate_summary_quality, evaluate_differential_quality,
                              evaluate_combined_quality)

Machine integers are modelled as Nat/Int, Python floats as exact rationals
(score arithmetic in the sources stays far from binary-rounding boundaries at
every value the theorems below evaluate), Python lists as List, dicts as
insertion-ordered association lists.
-/

set_option maxRecDepth 8000

namespace ICU

/-! ## Python string/list primitives -/

/-- Python slice text[a:b] for 0 ≤ a ≤ b (clamped at the length, as in Python). -/
def listExtract (l : List Char) (a b : Nat) : List Char :=
  (l.take b).drop a

/-- Whitespace test backing Python str.strip (ASCII subset). -/
def isWS (c : Char) : Bool :=
  c.isWhitespace

/-- Python str.strip(): drop whitespace from both ends. -/
def stripChars (l : List Char) : List Char :=
  ((l.dropWhile isWS).reverse.dropWhile isWS).reverse

/-- Python str.rfind(needle, lo, hi): highest index i with lo ≤ i and
i + needle.length ≤ hi at which needle occurs, if any. -/
def rfindSub (text needle : List Char) (lo hi : Nat) : Option Nat :=
  (((List.range' lo (hi + 1 - (lo + needle.length))).filter
    (fun i => listExtract text i (i + needle.length) == needle))).getLast?

/-- Python str.startswith on char lists. -/
def listStarts : List Char → List Char → Bool
  | _, [] => true
  | [], _ :: _ => false
  | a :: t, b :: u => a == b && listStarts t u

/-- Python str.startswith on String (String.startsWith itself does not reduce
inside the kernel, so the char-list form is used throughout). -/
def strStarts (s pfx : String) : Bool :=
  listStarts s.data pfx.data

/-- Python substring test (the in operator on str), on char lists. -/
def containsSub (hay needle : List Char) : Bool :=
  match hay with
  | [] => needle == []
  | _ :: t => (hay.take needle.length == needle) || containsSub t needle

/-- Python substring test on String. -/
def strContains (hay needle : String) : Bool :=
  containsSub hay.data needle.data

/-- Python str.lower() (ASCII subset). -/
def lowerStr (s : String) : String :=
  ⟨s.data.map Char.toLower⟩

/-- Python int(str) on a simple signed decimal literal (the only shapes that
appear in evidence-id segments); None models the ValueError path. -/
def pyInt? (s : String) : Option Int :=
  match s.data with
  | [] => none
  | '-' :: ds => if ds ≠ [] ∧ ds.all Char.isDigit then
      some (-(ds.foldl (fun a c => a * 10 + (c.toNat - 48)) 0 : Nat)) else none
  | '+' :: ds => if ds ≠ [] ∧ ds.all Char.isDigit then
      some ((ds.foldl (fun a c => a * 10 + (c.toNat - 48)) 0 : Nat)) else none
  | ds => if ds.all Char.isDigit then
      some ((ds.foldl (fun a c => a * 10 + (c.toNat - 48)) 0 : Nat)) else none

/-! ## ingest_csv.chunk_text -/

/-- Break sequences tried in order by chunk_text's boundary snapping. -/
def breakSeqs : List (List Char) :=
  [['\n', '\n'], ['\n'], ['.', ' '], ['?', ' '], ['!', ' ']]

/-- Boundary snapping inside chunk_text: the first break sequence found by
rfind strictly past start + min_chunk_size wins; otherwise the window end. -/
def snapFind (text : List Char) (start minC e : Nat) : List (List Char) → Nat
  | [] => e
  | bc :: rest =>
    match rfindSub text bc (start + minC) e with
    | some idx => if start + minC < idx then idx + bc.length else snapFind text start minC e rest
    | none => snapFind text start minC e rest

/-- Main loop of chunk_text (fuel bounds the number of iterations; the Python
while loop advances start each round, and every theorem below supplies
enough fuel for the loop to run to completion). -/
def chunkGo (text : List Char) (W O minC : Nat) : Nat → Nat → List (List Char × Nat × Nat)
  | 0, _ => []
  | fuel + 1, start =>
    if start < text.length then
      let end0 := min (start + W) text.length
      let e := if end0 < text.length then snapFind text start minC end0 breakSeqs else end0
      let ch := stripChars (listExtract text start e)
      let nxt := if e < text.length then e - O else text.length
      (if minC ≤ ch.length then [(ch, start, e)] else []) ++ chunkGo text W O minC fuel nxt
    else []

/-- ingest_csv.chunk_text: split text into overlapping windows, snapping ends
to break characters, stripping chunks and discarding those shorter than
min_chunk_size; texts shorter than min_chunk_size are returned whole. -/
def chunk_text (text : List Char) (W O minC : Nat) : List (List Char × Nat × Nat) :=
  if text = [] then []
  else if text.length < minC then [(text, 0, text.length)]
  else chunkGo text W O minC (text.length + 1) 0

/-- Coverage predicate used by the chunking claims: every position below L
falls inside some emitted chunk's char bounds. -/
def coversAll (chunks : List (List Char × Nat × Nat)) (L : Nat) : Prop :=
  ∀ i, i < L → ∃ c ∈ chunks, c.2.1 ≤ i ∧ i < c.2.2

instance (chunks : List (List Char × Nat × Nat)) (L : Nat) : Decidable (coversAll chunks L) :=
  Nat.decidableBallLT L (fun i _ => ∃ c ∈ chunks, c.2.1 ≤ i ∧ i < c.2.2)

/-! ## Arithmetic model of the chunk loop on break-free text -/

/-- Pure window arithmetic performed by chunkGo when boundary snapping never
fires and stripping is the identity (whitespace-free text). -/
def chunksArith (L W O minC : Nat) : Nat → Nat → List (Nat × Nat)
  | 0, _ => []
  | fuel + 1, s =>
    if s < L then
      if s + W < L then (s, s + W) :: chunksArith L W O minC fuel (s + W - O)
      else if minC ≤ L - s then [(s, L)] else []
    else []

lemma mem_of_mem_listExtract {text : List Char} {a b : Nat} {c : Char}
    (h : c ∈ listExtract text a b) : c ∈ text :=
  List.take_subset b text ((List.drop_subset a (text.take b)) h)

lemma stripChars_of_noWS {l : List Char} (h : ∀ c ∈ l, isWS c = false) :
    stripChars l = l := by
  have hdw : ∀ l2 : List Char, (∀ c ∈ l2, isWS c = false) → l2.dropWhile isWS = l2 := by
    intro l2 h2
    cases l2 with
    | nil => rfl
    | cons a t => simp [List.dropWhile_cons, h2 a (by simp)]
  unfold stripChars
  rw [hdw l h, hdw l.reverse (by intro c hc; exact h c (List.mem_reverse.mp hc)), List.reverse_reverse]

lemma rfindSub_of_noWS {text : List Char} (h : ∀ c ∈ text, isWS c = false)
    (bc : List Char) (hbc : ∃ w ∈ bc, isWS w = true) (lo hi : Nat) :
    rfindSub text bc lo hi = none := by
  obtain ⟨w, hwm, hww⟩ := hbc
  unfold rfindSub
  rw [List.filter_eq_nil_iff.mpr ?_]
  · rfl
  · intro i _ hpred
    have heq : listExtract text i (i + bc.length) = bc := by
      simpa using hpred
    have : w ∈ text := mem_of_mem_listExtract (heq ▸ hwm)
    rw [h w this] at hww
    exact Bool.noConfusion hww

lemma snapFind_of_noWS {text : List Char} (h : ∀ c ∈ text, isWS c = false)
    (start minC e : Nat) : snapFind text start minC e breakSeqs = e := by
  have h1 := rfindSub_of_noWS h ['\n', '\n'] ⟨'\n', by simp, by decide⟩
  have h2 := rfindSub_of_noWS h ['\n'] ⟨'\n', by simp, by decide⟩
  have h3 := rfindSub_of_noWS h ['.', ' '] ⟨' ', by simp, by decide⟩
  have h4 := rfindSub_of_noWS h ['?', ' '] ⟨' ', by simp, by decide⟩
  have h5 := rfindSub_of_noWS h ['!', ' '] ⟨' ', by simp, by decide⟩
  simp [breakSeqs, snapFind, h1, h2, h3, h4, h5]

lemma length_listExtract (text : List Char) (a b : Nat) :
    (listExtract text a b).length = min b text.length - a := by
  simp [listExtract]

lemma chunkGo_stop {text : List Char} {W O minC s : Nat} (hs : text.length ≤ s) :
    ∀ fuel, chunkGo text W O minC fuel s = [] := by
  intro fuel
  cases fuel with
  | zero => rfl
  | succ n => simp [chunkGo, Nat.not_lt.mpr hs]

lemma chunksArith_stop {L W O minC s : Nat} (hs : L ≤ s) :
    ∀ fuel, chunksArith L W O minC fuel s = [] := by
  intro fuel
  cases fuel with
  | zero => rfl
  | succ n => simp [chunksArith, Nat.not_lt.mpr hs]

lemma chunkGo_eq_arith {text : List Char} {W O minC : Nat}
    (h : ∀ c ∈ text, isWS c = false) (hmW : minC ≤ W) :
    ∀ fuel s, chunkGo text W O minC fuel s =
      (chunksArith text.length W O minC fuel s).map
        (fun p => (listExtract text p.1 p.2, p.1, p.2)) := by
  intro fuel
  induction fuel with
  | zero => intro s; rfl
  | succ n ih =>
    intro s
    by_cases hs : s < text.length
    · by_cases hw : s + W < text.length
      · have hend0 : min (s + W) text.length = s + W := Nat.min_eq_left (Nat.le_of_lt hw)
        have hstrip : stripChars (listExtract text s (s + W)) = listExtract text s (s + W) :=
          stripChars_of_noWS (fun c hc => h c (mem_of_mem_listExtract hc))
        have hlen : (listExtract text s (s + W)).length = W := by
          rw [length_listExtract, hend0, Nat.add_sub_cancel_left]
        simp only [chunkGo, chunksArith, hs, if_true, hw, if_true, hend0,
          snapFind_of_noWS h, hstrip, hlen, hmW, if_true, List.map_cons]
        rw [ih (s + W - O)]
        rfl
      · have hend0 : min (s + W) text.length = text.length := Nat.min_eq_right (Nat.not_lt.mp hw)
        have hstrip : stripChars (listExtract text s text.length) = listExtract text s text.length :=
          stripChars_of_noWS (fun c hc => h c (mem_of_mem_listExtract hc))
        have hlen : (listExtract text s text.length).length = text.length - s := by
          rw [length_listExtract, Nat.min_self]
        simp only [chunkGo, chunksArith, hs, if_true, hw, if_false, hend0,
          lt_irrefl, hstrip, hlen]
        rw [chunkGo_stop (Nat.le_refl _)]
        by_cases hkeep : minC ≤ text.length - s <;> simp [hkeep]
    · rw [chunkGo_stop (Nat.not_lt.mp hs), chunksArith_stop (Nat.not_lt.mp hs)]
      rfl

lemma chunksArith_cov {L W O minC : Nat} (hOW : O < W) (hm0 : 0 < minC) :
    ∀ fuel s, s < L → L - s < fuel →
      ∃ m, s ≤ m ∧ m ≤ L ∧ L - m < minC ∧
        ∀ i, s ≤ i → i < m →
          ∃ c ∈ chunksArith L W O minC fuel s, c.1 ≤ i ∧ i < c.2 := by
  intro fuel
  induction fuel with
  | zero => intro s _ hf; exact absurd hf (Nat.not_lt_zero _)
  | succ n ih =>
    intro s hs hf
    by_cases hw : s + W < L
    · have hsO : s < s + W - O := by omega
      have hs2 : s + W - O < L := by omega
      have hf2 : L - (s + W - O) < n := by omega
      obtain ⟨m', hm1, hm2, hm3, hcov⟩ := ih (s + W - O) hs2 hf2
      refine ⟨max (s + W) m', le_trans (by omega) (Nat.le_max_left _ _), ?_, ?_, ?_⟩
      · exact max_le (Nat.le_of_lt hw) hm2
      · have hmr := Nat.le_max_right (s + W) m'
        omega
      · intro i hi1 hi2
        by_cases hhead : i < s + W
        · exact ⟨(s, s + W), by simp [chunksArith, hs, hw], hi1, hhead⟩
        · have hi4 : i < m' := by
            rcases max_choice (s + W) m' with hmx | hmx
            · rw [hmx] at hi2; omega
            · rw [hmx] at hi2; exact hi2
          have hi5 : s + W - O ≤ i := by omega
          obtain ⟨c, hc, hcb⟩ := hcov i hi5 hi4
          exact ⟨c, by simp [chunksArith, hs, hw]; right; exact hc, hcb⟩
    · by_cases hkeep : minC ≤ L - s
      · refine ⟨L, Nat.le_of_lt hs, Nat.le_refl L, by omega, ?_⟩
        intro i hi1 hi2
        exact ⟨(s, L), by simp [chunksArith, hs, hw, hkeep], hi1, hi2⟩
      · exact ⟨s, Nat.le_refl s, Nat.le_of_lt hs, by omega, fun i hi1 hi2 => absurd hi2 (by omega)⟩

lemma chunksArith_count {L W O minC : Nat} (hOW : O < W) :
    ∀ fuel s, s < L → L - s < fuel →
      ((L - s - O) + (W - O) - 1) / (W - O) ≤ (chunksArith L W O minC fuel s).length + 1 ∧
      (chunksArith L W O minC fuel s).length ≤ ((L - s - O) + (W - O) - 1) / (W - O) + 1 := by
  intro fuel
  induction fuel with
  | zero => intro s _ hf; exact absurd hf (Nat.not_lt_zero _)
  | succ n ih =>
    intro s hs hf
    have hd : 0 < W - O := by omega
    by_cases hw : s + W < L
    · have hs2 : s + W - O < L := by omega
      have hf2 : L - (s + W - O) < n := by omega
      obtain ⟨ihl, ihr⟩ := ih (s + W - O) hs2 hf2
      have hstep : (L - s - O) + (W - O) - 1 = ((L - (s + W - O) - O) + (W - O) - 1) + (W - O) := by
        omega
      have hdiv : ((L - s - O) + (W - O) - 1) / (W - O) =
          ((L - (s + W - O) - O) + (W - O) - 1) / (W - O) + 1 := by
        rw [hstep, Nat.add_div_right _ hd]
      have hlen : (chunksArith L W O minC (n + 1) s).length =
          (chunksArith L W O minC n (s + W - O)).length + 1 := by
        simp [chunksArith, hs, hw]
      rw [hdiv, hlen]
      omega
    · have hF : ((L - s - O) + (W - O) - 1) / (W - O) ≤ 1 := by
        have h1 : (L - s - O) + (W - O) - 1 < 2 * (W - O) := by omega
        have := Nat.div_lt_of_lt_mul (by omega : (L - s - O) + (W - O) - 1 < (W - O) * 2)
        omega
      have hlen : (chunksArith L W O minC (n + 1) s).length ≤ 1 := by
        by_cases hkeep : minC ≤ L - s <;> simp [chunksArith, hs, hw, hkeep]
      constructor
      · exact le_trans hF (Nat.le_add_left 1 _)
      · exact le_trans hlen (Nat.succ_le_succ (Nat.zero_le _))

/-! ## Claim C9 and C10 statements about chunk_text -/

/-- Concrete break-free input used to refute the coverage clause of C9:
549 letters chunked with window 500, overlap 0, floor 50 (the note-field
configuration in process_csv_row). -/
def ex9txt : List Char := List.replicate 549 'a'

lemma ex9_eval : chunk_text ex9txt 500 0 50 =
    [(List.replicate 500 'a', 0, 500)] := by
  have hws : ∀ c ∈ ex9txt, isWS c = false := by
    intro c hc
    rw [List.eq_of_mem_replicate hc]
    rfl
  have hL : ex9txt.length = 549 := by simp [ex9txt]
  unfold chunk_text
  rw [if_neg (by simp [ex9txt]), if_neg (by simp [hL]),
    chunkGo_eq_arith hws (by omega), hL]
  have harith : chunksArith 549 500 0 50 550 0 = [(0, 500)] := by
    rw [show (550 : Nat) = 549 + 1 by rfl]
    rw [chunksArith]
    norm_num
    rw [show (549 : Nat) = 548 + 1 by rfl]
    rw [chunksArith]
    norm_num
  rw [harith]
  simp [listExtract, ex9txt, List.take_replicate]

/-- Claim C9 (counterexample): for a 549-character break-free text with window
500, overlap 0 and minimum chunk size 50, the single emitted chunk covers only
char positions 0..499, so the union of the chunks does not cover the text:
the trailing 49-character fragment is discarded by the minimum-length floor.
This refutes the claim that the union of the emitted chunks covers the
original text (the count-tolerance clause alone is not violated here). -/
theorem C9_counterexample :
    ¬ (coversAll (chunk_text ex9txt 500 0 50) ex9txt.length ∧
       ((ex9txt.length - 0) + (500 - 0) - 1) / (500 - 0) ≤ (chunk_text ex9txt 500 0 50).length + 1 ∧
       (chunk_text ex9txt 500 0 50).length ≤ ((ex9txt.length - 0) + (500 - 0) - 1) / (500 - 0) + 1) := by
  rintro ⟨hcov, -⟩
  obtain ⟨c, hc, hc1, hc2⟩ := hcov 548 (by simp [ex9txt])
  rw [ex9_eval] at hc
  rcases List.mem_singleton.mp hc with rfl
  exact absurd hc2 (by norm_num)

/-- Claim C9 (amended): for whitespace-free text (no boundary snapping, no
stripping) of length at least the minimum chunk size, with overlap O < window
W and minC ≤ W, chunk_text covers every position of the text except possibly a
trailing fragment shorter than minC that the minimum-length floor discards,
and the number of chunks is within ±1 of ceil((L-O)/(W-O)). -/
theorem C9_amended (text : List Char) (W O minC : Nat)
    (hws : text.all (fun c => !(isWS c)) = true)
    (hlen : minC ≤ text.length) (hOW : O < W) (hmW : minC ≤ W) (hm0 : 0 < minC) :
    (∃ m, m ≤ text.length ∧ text.length - m < minC ∧
       ∀ i, i < m → ∃ c ∈ chunk_text text W O minC, c.2.1 ≤ i ∧ i < c.2.2) ∧
    ((text.length - O) + (W - O) - 1) / (W - O) ≤ (chunk_text text W O minC).length + 1 ∧
    (chunk_text text W O minC).length ≤ ((text.length - O) + (W - O) - 1) / (W - O) + 1 := by
  have hnoWS : ∀ c ∈ text, isWS c = false := by
    intro c hc
    have := List.all_eq_true.mp hws c hc
    simpa using this
  have hne : text ≠ [] := by
    intro hnil
    rw [hnil] at hlen
    simp at hlen
    omega
  have hL0 : 0 < text.length := by
    cases text with
    | nil => exact absurd rfl hne
    | cons a t => simp
  have heq : chunk_text text W O minC =
      (chunksArith text.length W O minC (text.length + 1) 0).map
        (fun p => (listExtract text p.1 p.2, p.1, p.2)) := by
    unfold chunk_text
    rw [if_neg hne, if_neg (by omega), chunkGo_eq_arith hnoWS hmW]
  have hfuel : text.length - 0 < text.length + 1 := by omega
  constructor
  · obtain ⟨m, hm1, hm2, hm3, hcov⟩ :=
      @chunksArith_cov text.length W O minC hOW hm0 (text.length + 1) 0 hL0 hfuel
    refine ⟨m, hm2, hm3, ?_⟩
    intro i hi
    obtain ⟨c, hc, hcb1, hcb2⟩ := hcov i (Nat.zero_le i) hi
    refine ⟨(listExtract text c.1 c.2, c.1, c.2), ?_, hcb1, hcb2⟩
    rw [heq]
    exact List.mem_map_of_mem _ hc
  · have := @chunksArith_count text.length W O minC hOW (text.length + 1) 0 hL0 hfuel
    rw [heq, List.length_map]
    simpa using this

/-- Claim C10 (confirmed): a non-empty text strictly shorter than the minimum
chunk size is returned as exactly one chunk holding the whole text with char
bounds (0, length); the minimum-length floor never discards it. -/
theorem C10_short_text_single_chunk (text : List Char) (W O minC : Nat)
    (hne : text ≠ []) (hshort : text.length < minC) :
    chunk_text text W O minC = [(text, 0, text.length)] := by
  unfold chunk_text
  rw [if_neg hne, if_pos hshort]

/-- Witness for C10 at a concrete two-character text with the default
minimum chunk size 50. -/
theorem C10_witness :
    chunk_text ['h', 'i'] 500 50 50 = [(['h', 'i'], 0, 2)] :=
  C10_short_text_single_chunk ['h', 'i'] 500 50 50 (by decide) (by decide)

/-- Witness for C9 (amended) at a 120-character break-free text with window
100, overlap 10, floor 50: the trailing 30-character fragment is dropped and
the chunk count 1 is within ±1 of ceil(110/90) = 2. -/
theorem C9_witness :
    (∃ m, m ≤ (List.replicate 120 'a').length ∧ (List.replicate 120 'a').length - m < 50 ∧
       ∀ i, i < m → ∃ c ∈ chunk_text (List.replicate 120 'a') 100 10 50, c.2.1 ≤ i ∧ i < c.2.2) ∧
    (((List.replicate 120 'a').length - 10) + (100 - 10) - 1) / (100 - 10) ≤
      (chunk_text (List.replicate 120 'a') 100 10 50).length + 1 ∧
    (chunk_text (List.replicate 120 'a') 100 10 50).length ≤
      (((List.replicate 120 'a').length - 10) + (100 - 10) - 1) / (100 - 10) + 1 :=
  C9_amended (List.replicate 120 'a') 100 10 50 (by decide) (by decide)
    (by decide) (by decide) (by decide)

/-! ## Schemas shared by the validator, cleanup and quality-gate modules -/

/-- ingest.schemas.ExtractedFact. -/
structure ExtractedFact where
  label : String
  value : String
  evidence_ids : List String
deriving DecidableEq

/-- ingest.schemas.DxHypothesis (confidence kept as a plain string). -/
structure DxHypothesis where
  diagnosis : String
  support : List ExtractedFact
  against : List ExtractedFact
  missing : List String
  references : List String
  confidence : String
deriving DecidableEq

/-- ingest.schemas.DifferentialOutput. -/
structure DifferentialOutput where
  differential : List DxHypothesis
deriving DecidableEq

/-- ingest.schemas.VerificationFinding. -/
structure VerificationFinding where
  severity : String
  message : String
  offending_text : Option String
  missing_evidence_ids : List String
deriving DecidableEq

/-- ingest.schemas.VerificationReport. -/
structure VerificationReport where
  ok : Bool
  findings : List VerificationFinding
deriving DecidableEq

/-- Evidence store dict, modelled as an insertion-ordered id→raw_text
association list (the validator only tests key membership). -/
def storeHas (store : List (String × String)) (eid : String) : Bool :=
  (store.lookup eid).isSome

/-! ## validate_outputs.validate_differential -/

/-- Forbidden-provenance error message emitted by validate_differential. -/
def msgForbidden (block : String) : String :=
  "Differential " ++ block ++ " uses non-patient evidence (D/C). Put these into references instead."

/-- Unknown-id error message emitted by validate_differential. -/
def msgUnknown : String :=
  "Differential references unknown evidence_ids."

/-- Provenance test applied per evidence id: eid.startswith(("D", "C")). -/
def isBadId (eid : String) : Bool :=
  strStarts eid "D" || strStarts eid "C"

/-- Findings generated for one support/against fact inside
validate_differential's inner loop (the bad and missing locals of the source
are inlined). -/
def factFindings (store : List (String × String)) (dxName block : String)
    (f : ExtractedFact) : List VerificationFinding :=
  (if (f.evidence_ids.filter isBadId).isEmpty then []
   else [⟨"error", msgForbidden block, some (dxName ++ "::" ++ f.label),
          f.evidence_ids.filter isBadId⟩]) ++
  (if (f.evidence_ids.filter (fun eid => !(storeHas store eid))).isEmpty then []
   else [⟨"error", msgUnknown, some (dxName ++ "::" ++ f.label),
          f.evidence_ids.filter (fun eid => !(storeHas store eid))⟩])

/-- Findings generated for one diagnosis inside validate_differential. -/
def dxFindings (store : List (String × String)) (dx : DxHypothesis) :
    List VerificationFinding :=
  (if dx.support.length < 2 then
    [⟨"warning", "Diagnosis has < 2 supports.", some dx.diagnosis, []⟩] else []) ++
  (if dx.missing.length < 1 then
    [⟨"warning", "Diagnosis missing discriminators absent.", some dx.diagnosis, []⟩] else []) ++
  (dx.support.map (factFindings store dx.diagnosis "support")).flatten ++
  (dx.against.map (factFindings store dx.diagnosis "against")).flatten

/-- Findings list assembled by validate_outputs.validate_differential. -/
def diffFindings (d : DifferentialOutput) (store : List (String × String)) :
    List VerificationFinding :=
  (if d.differential.length < 3 then
    [⟨"warning", "Differential has < 3 items.", none, []⟩] else []) ++
  (d.differential.map (dxFindings store)).flatten

/-- validate_outputs.validate_differential. -/
def validate_differential (d : DifferentialOutput) (store : List (String × String)) :
    VerificationReport :=
  ⟨(diffFindings d store).all (fun f => f.severity != "error"), diffFindings d store⟩

/-- Test for the forbidden-provenance finding shape among the findings. -/
def isForbiddenFinding (f : VerificationFinding) : Bool :=
  f.severity == "error" &&
    (f.message == msgForbidden "support" || f.message == msgForbidden "against")

/-! ## Claim C1 -/

/-- Differential output whose two support facts cite only patient-derived
CSV evidence ids (CS_ and CN_ records, both present in the store). -/
def exC1out : DifferentialOutput :=
  ⟨[⟨"Biliary atresia",
     [⟨"Prior Kasai procedure", "status post Kasai", ["CS_7_0"]⟩,
      ⟨"Persistent jaundice", "jaundice documented", ["CN_7_0"]⟩],
     [], ["HIDA scan"], [], "medium"⟩]⟩

/-- Store holding the two patient-derived CSV records cited above. -/
def exC1store : List (String × String) :=
  [("CS_7_0", "demographics.age: 2 months"),
   ("CN_7_0", "Patient reports abdominal pain for three days.")]

/-- Claim C1 (counterexample): both support facts cite only patient-derived
evidence ids with the CS_/CN_ prefixes, both ids exist in the store, yet
validate_differential flags each of them with the forbidden-provenance error
(the check looks only at the first character, and CS_/CN_/CF_/CV_ all start
with C): the report fails, refuting the claim that patient-derived ids are
never flagged. -/
theorem C1_counterexample :
    ((validate_differential exC1out exC1store).findings.filter isForbiddenFinding).map
      (fun f => f.missing_evidence_ids) = [["CS_7_0"], ["CN_7_0"]] ∧
    (validate_differential exC1out exC1store).ok = false := by
  exact ⟨rfl, rfl⟩

lemma isEmpty_filter_eq {α : Type} (p : α → Bool) (l : List α) :
    (l.filter p).isEmpty = !(l.any p) := by
  induction l with
  | nil => rfl
  | cons a t ih =>
    by_cases hp : p a <;> simp [List.filter_cons, hp, ih]

lemma any_flatten_map {α β : Type} (g : α → List β) (p : β → Bool) (l : List α) :
    ((l.map g).flatten).any p = l.any (fun x => (g x).any p) := by
  induction l with
  | nil => rfl
  | cons a t ih => simp [List.any_append, ih]

lemma isForbidden_unknownF (o : Option String) (ids : List String) :
    isForbiddenFinding ⟨"error", msgUnknown, o, ids⟩ = false := rfl

lemma isForbidden_warnF (m : String) (o : Option String) (ids : List String) :
    isForbiddenFinding ⟨"warning", m, o, ids⟩ = false := rfl

lemma factFindings_any (store : List (String × String)) (n : String) (f : ExtractedFact)
    (block : String) (hb : block = "support" ∨ block = "against") :
    (factFindings store n block f).any isForbiddenFinding = f.evidence_ids.any isBadId := by
  unfold factFindings
  rw [isEmpty_filter_eq, isEmpty_filter_eq]
  cases hany : f.evidence_ids.any isBadId
  · cases hmiss : f.evidence_ids.any (fun eid => !(storeHas store eid)) <;>
      simp [hany, hmiss, isForbidden_unknownF]
  · rcases hb with rfl | rfl <;> simp [hany, isForbiddenFinding]

lemma dxFindings_any (store : List (String × String)) (dx : DxHypothesis) :
    (dxFindings store dx).any isForbiddenFinding =
      (dx.support ++ dx.against).any (fun f => f.evidence_ids.any isBadId) := by
  unfold dxFindings
  rw [List.any_append, List.any_append, List.any_append, List.any_append,
    any_flatten_map, any_flatten_map]
  have h1 : (if dx.support.length < 2 then
      ([⟨"warning", "Diagnosis has < 2 supports.", some dx.diagnosis, []⟩] :
        List VerificationFinding) else []).any isForbiddenFinding = false := by
    by_cases h : dx.support.length < 2 <;> simp [h, isForbidden_warnF]
  have h2 : (if dx.missing.length < 1 then
      ([⟨"warning", "Diagnosis missing discriminators absent.", some dx.diagnosis, []⟩] :
        List VerificationFinding) else []).any isForbiddenFinding = false := by
    by_cases h : dx.missing.length < 1 <;> simp [h, isForbidden_warnF]
  rw [h1, h2]
  simp [factFindings_any store dx.diagnosis _ "support" (Or.inl rfl),
    factFindings_any store dx.diagnosis _ "against" (Or.inr rfl)]

/-- Claim C1 (amended): validate_differential emits a forbidden-provenance
error if and only if some support/against fact cites an evidence id whose
first character is D or C. This catches the background domain/codebook
records (ids D…/C…), but it equally fires on the patient-derived CSV ids
CS_/CN_/CF_/CV_, which also start with C; only ids with other first
characters (the legacy patient N/L/M records) are never flagged. -/
theorem C1_amended (d : DifferentialOutput) (store : List (String × String)) :
    (validate_differential d store).findings.any isForbiddenFinding =
      d.differential.any
        (fun dx => (dx.support ++ dx.against).any (fun f => f.evidence_ids.any isBadId)) := by
  unfold validate_differential diffFindings
  rw [List.any_append, any_flatten_map]
  have h1 : (if d.differential.length < 3 then
      ([⟨"warning", "Differential has < 3 items.", none, []⟩] :
        List VerificationFinding) else []).any isForbiddenFinding = false := by
    by_cases h : d.differential.length < 3 <;> simp [h, isForbidden_warnF]
  rw [h1]
  simp [dxFindings_any]

/-! ## differential_cleanup -/

/-- One entry of differential_cleanup.WEAK_SUPPORT_RULES. -/
structure WeakRule where
  key : String
  remove_labels : List String
  remove_values : List String

/-- differential_cleanup.WEAK_SUPPORT_RULES (dict iteration order preserved). -/
def WEAK_SUPPORT_RULES : List WeakRule :=
  [⟨"aki", ["rbc", "rbc elevation", "red blood cell"], ["rbc elevation", "rbc"]⟩,
   ⟨"acute kidney injury", ["rbc", "rbc elevation", "red blood cell"], ["rbc elevation", "rbc"]⟩,
   ⟨"coagulopathy", ["bun", "elevated bun"], ["elevated bun"]⟩]

/-- Removal test applied to one support under an applicable rule. -/
def shouldRemoveSupport (rule : WeakRule) (s : ExtractedFact) : Bool :=
  rule.remove_labels.any (fun rl => strContains (lowerStr s.label) rl) ||
  rule.remove_values.any (fun rv => strContains (lowerStr s.value) rv)

/-- Per-diagnosis body of differential_cleanup.clean_weak_supports. -/
def cleanDx (dx : DxHypothesis) : DxHypothesis :=
  match WEAK_SUPPORT_RULES.find? (fun rule => strContains (lowerStr dx.diagnosis) rule.key) with
  | none => dx
  | some rule => { dx with support := dx.support.filter (fun s => !(shouldRemoveSupport rule s)) }

/-- differential_cleanup.clean_weak_supports. -/
def clean_weak_supports (d : DifferentialOutput) : DifferentialOutput :=
  ⟨d.differential.map cleanDx⟩

/-- Per-diagnosis body of differential_cleanup.enforce_minimum_supports. -/
def enforceDx (dx : DxHypothesis) : DxHypothesis :=
  if dx.support.length < 2 then
    { dx with
      confidence := "low"
      missing := (if dx.missing.isEmpty then
        ["Additional clinical or lab evidence needed to confirm diagnosis"]
      else dx.missing) }
  else dx

/-- differential_cleanup.enforce_minimum_supports. -/
def enforce_minimum_supports (d : DifferentialOutput) : DifferentialOutput :=
  ⟨d.differential.map enforceDx⟩

/-- Per-support body of differential_cleanup.fix_kasai_evidence_id. -/
def kasaiFact (s : ExtractedFact) : ExtractedFact :=
  if strContains (lowerStr s.label) "kasai" || strContains (lowerStr s.value) "kasai" then
    (if s.evidence_ids.contains "N000002" then s else { s with evidence_ids := ["N000002"] })
  else s

/-- differential_cleanup.fix_kasai_evidence_id. -/
def fix_kasai_evidence_id (d : DifferentialOutput) : DifferentialOutput :=
  ⟨d.differential.map (fun dx => { dx with support := dx.support.map kasaiFact })⟩

/-- differential_cleanup.deduplicate_diagnoses: logs hepatic-related overlaps
but returns the output unchanged. -/
def deduplicate_diagnoses (d : DifferentialOutput) : DifferentialOutput :=
  d

/-- differential_cleanup.run_all_cleanups. -/
def run_all_cleanups (d : DifferentialOutput) : DifferentialOutput :=
  deduplicate_diagnoses
    (enforce_minimum_supports (clean_weak_supports (fix_kasai_evidence_id d)))

/-! ## Claim C5 -/

/-- Claim C5 (confirmed): after run_all_cleanups, every diagnosis left with
fewer than 2 support items has confidence low and a non-empty missing list
(the support-stripping step runs before enforce_minimum_supports and nothing
afterwards touches supports, confidence or missing). -/
theorem C5_min_supports_low_confidence (d : DifferentialOutput) :
    ∀ dx ∈ (run_all_cleanups d).differential,
      dx.support.length < 2 → dx.confidence = "low" ∧ dx.missing ≠ [] := by
  intro dx hdx hlen
  have hdx2 : dx ∈ (clean_weak_supports (fix_kasai_evidence_id d)).differential.map enforceDx := hdx
  obtain ⟨dx0, hdx0, rfl⟩ := List.mem_map.mp hdx2
  by_cases h2 : dx0.support.length < 2
  · refine ⟨by simp [enforceDx, h2], ?_⟩
    cases hm : dx0.missing with
    | nil => simp [enforceDx, h2, hm]
    | cons a t => simp [enforceDx, h2, hm]
  · rw [enforceDx, if_neg h2] at hlen
    exact absurd hlen h2

/-- Concrete input for the C5 witness: one diagnosis with a single support. -/
def exC5 : DifferentialOutput :=
  ⟨[⟨"Sepsis", [⟨"Fever", "T 39.2", ["N000003"]⟩], [], [], [], "high"⟩]⟩

/-- Witness for C5: the single-support diagnosis comes out of run_all_cleanups
with confidence low and the generic missing placeholder. -/
theorem C5_witness :
    (⟨"Sepsis", [⟨"Fever", "T 39.2", ["N000003"]⟩], [],
      ["Additional clinical or lab evidence needed to confirm diagnosis"], [],
      "low"⟩ : DxHypothesis).confidence = "low" ∧
    (⟨"Sepsis", [⟨"Fever", "T 39.2", ["N000003"]⟩], [],
      ["Additional clinical or lab evidence needed to confirm diagnosis"], [],
      "low"⟩ : DxHypothesis).missing ≠ [] :=
  C5_min_supports_low_confidence exC5 _ (by decide) (by decide)

/-! ## quality_gate -/

/-- ingest.schemas.ICUSectionBullet. -/
structure ICUSectionBullet where
  text : String
  evidence_ids : List String
deriving DecidableEq

/-- ingest.schemas.ICUStructuredSummary. -/
structure ICUStructuredSummary where
  patient_info : List ICUSectionBullet
  primary_problems : List ICUSectionBullet
  respiratory : List ICUSectionBullet
  cardiovascular : List ICUSectionBullet
  hepatic : List ICUSectionBullet
  renal : List ICUSectionBullet
  hematology_coag : List ICUSectionBullet
  infectious : List ICUSectionBullet
  neurologic : List ICUSectionBullet
  key_labs : List ICUSectionBullet
  supports : List ICUSectionBullet
  procedures : List ICUSectionBullet
deriving DecidableEq

/-- ingest.schemas.QualityGateResult (the metrics dict is diagnostic-only in
the source and is not consulted by any claim; the two rounded averages the
differential gate compares against its bonus thresholds are computed inline
below exactly as the source computes them). -/
structure QualityGateResult where
  passed : Bool
  score : Int
  warnings : List String
  errors : List String
deriving DecidableEq

/-- quality_gate.count_icu_summary_bullets. -/
def count_icu_summary_bullets (s : ICUStructuredSummary) : Nat :=
  s.patient_info.length + s.primary_problems.length + s.respiratory.length +
  s.cardiovascular.length + s.hepatic.length + s.renal.length +
  s.hematology_coag.length + s.infectious.length + s.neurologic.length +
  s.key_labs.length + s.supports.length + s.procedures.length

/-- Concatenation of every section in the order the source builds all_bullets. -/
def allBullets (s : ICUStructuredSummary) : List ICUSectionBullet :=
  s.patient_info ++ s.primary_problems ++ s.respiratory ++ s.cardiovascular ++
  s.hepatic ++ s.renal ++ s.hematology_coag ++ s.infectious ++ s.neurologic ++
  s.key_labs ++ s.supports ++ s.procedures

/-- Clamp to the 0..100 score range: max(0, min(100, x)). -/
def clamp0100 (x : Int) : Int :=
  max 0 (min 100 x)

/-- Warnings emitted by evaluate_summary_quality, in emission order. -/
def summaryWarnings (s : ICUStructuredSummary) : List String :=
  (if count_icu_summary_bullets s < 6 then
    ["Summary has only " ++ toString (count_icu_summary_bullets s) ++ " bullets (min: 6)"]
   else []) ++
  (if s.key_labs.length < 2 then
    ["Only " ++ toString s.key_labs.length ++ " key labs (recommend: 2+)"]
   else [])

/-- Errors emitted by evaluate_summary_quality, in emission order. -/
def summaryErrors (s : ICUStructuredSummary) : List String :=
  (if s.primary_problems.length < 1 then ["No primary problems identified"] else []) ++
  (if 0 < ((allBullets s).filter (fun b => b.evidence_ids.isEmpty)).length then
    [toString ((allBullets s).filter (fun b => b.evidence_ids.isEmpty)).length ++
      " bullets missing evidence_ids"]
   else [])

/-- quality_gate.evaluate_summary_quality. -/
def evaluate_summary_quality (s : ICUStructuredSummary) : QualityGateResult :=
  ⟨((summaryErrors s).length == 0) &&
     decide ((60 : Int) ≤ clamp0100 (100 - 20 * ((summaryErrors s).length : Int) -
       10 * ((summaryWarnings s).length : Int))),
   clamp0100 (100 - 20 * ((summaryErrors s).length : Int) -
     10 * ((summaryWarnings s).length : Int)),
   summaryWarnings s,
   summaryErrors s⟩

/-- Python int() applied to a non-negative float value: truncation toward
zero, which on the non-negative scores below coincides with the floor. -/
def pyIntOfRat (q : ℚ) : Int :=
  ⌊q⌋

/-- Python round(x, 1) on the non-negative averages the differential gate
compares (exact at every value the theorems below evaluate). -/
def round1 (q : ℚ) : ℚ :=
  ((⌊q * 10 + 1 / 2⌋ : Int) : ℚ) / 10

/-- quality_gate.OVERLAP_PATTERNS. -/
def OVERLAP_PATTERNS : List (List String × String) :=
  [(["hepatic", "liver"], "hepatic failure"),
   (["sepsis", "septic"], "sepsis"),
   (["ards", "respiratory"], "respiratory failure")]

/-- Overlap warnings appended after the per-diagnosis loop (the Python
message interpolates the repr of the matching name list; the rendering of
that list is approximated by toString, which no claim inspects). -/
def overlapWarnings (names : List String) : List String :=
  (OVERLAP_PATTERNS.map (fun pat =>
    if 1 < (names.filter (fun n => pat.1.any (fun p => strContains (lowerStr n) p))).length then
      ["Possible overlapping " ++ pat.2 ++ " diagnoses: " ++
        toString (names.filter (fun n => pat.1.any (fun p => strContains (lowerStr n) p)))]
    else [])).flatten

/-- Warnings emitted by evaluate_differential_quality, in emission order. -/
def dxQualityWarnings (d : DifferentialOutput) : List String :=
  (if d.differential.length < 3 then
    ["Differential has only " ++ toString d.differential.length ++ " items (min: 3)"]
   else []) ++
  (d.differential.map (fun dx =>
    (if dx.support.length < 2 then
      ["\x27" ++ dx.diagnosis ++ "\x27 has only " ++ toString dx.support.length ++
        " support items (min: 2)"]
     else []) ++
    (if dx.missing.length < 1 then
      ["\x27" ++ dx.diagnosis ++ "\x27 has no missing discriminators"]
     else []))).flatten ++
  overlapWarnings (d.differential.map (fun dx => dx.diagnosis))

/-- Errors emitted by evaluate_differential_quality, in emission order. -/
def dxQualityErrors (d : DifferentialOutput) : List String :=
  (d.differential.map (fun dx =>
    (dx.support.filter (fun s => s.evidence_ids.isEmpty)).map (fun s =>
      "\x27" ++ dx.diagnosis ++ "\x27 support \x27" ++ s.label ++
        "\x27 has no evidence_ids"))).flatten

/-- Bonus points added by evaluate_differential_quality before clamping. -/
def dxQualityBonus (d : DifferentialOutput) : Int :=
  (if 3 ≤ d.differential.length then 5 else 0) +
  (if (2 : ℚ) ≤ round1 ((((d.differential.map (fun dx => dx.support.length)).sum : Nat) : ℚ) /
      ((d.differential.length : Nat) : ℚ)) then 5 else 0) +
  (if (1 : ℚ) ≤ round1 ((((d.differential.map (fun dx => dx.missing.length)).sum : Nat) : ℚ) /
      ((d.differential.length : Nat) : ℚ)) then 5 else 0)

/-- quality_gate.evaluate_differential_quality. -/
def evaluate_differential_quality (d : DifferentialOutput) : QualityGateResult :=
  if d.differential.length == 0 then
    ⟨false, 0, [], ["No differential diagnoses generated"]⟩
  else
    ⟨((dxQualityErrors d).length == 0) &&
       decide ((60 : Int) ≤ clamp0100 (100 - 25 * ((dxQualityErrors d).length : Int) -
         8 * ((dxQualityWarnings d).length : Int) + dxQualityBonus d)),
     clamp0100 (100 - 25 * ((dxQualityErrors d).length : Int) -
       8 * ((dxQualityWarnings d).length : Int) + dxQualityBonus d),
     dxQualityWarnings d,
     dxQualityErrors d⟩

/-- quality_gate.evaluate_combined_quality. -/
def evaluate_combined_quality (s : ICUStructuredSummary) (d : DifferentialOutput) :
    QualityGateResult :=
  ⟨(evaluate_summary_quality s).passed && (evaluate_differential_quality d).passed,
   pyIntOfRat ((2 / 5 : ℚ) * ((evaluate_summary_quality s).score : ℚ) +
     (3 / 5 : ℚ) * ((evaluate_differential_quality d).score : ℚ)),
   ((evaluate_summary_quality s).warnings.map (fun w => "[Summary] " ++ w)) ++
     ((evaluate_differential_quality d).warnings.map (fun w => "[Differential] " ++ w)),
   ((evaluate_summary_quality s).errors.map (fun e => "[Summary] " ++ e)) ++
     ((evaluate_differential_quality d).errors.map (fun e => "[Differential] " ++ e))⟩

/-! ## Claim C7 -/

/-- Summary with six evidence-backed bullets, two primary problems and two key
labs: no warnings, no errors, score 100, passed. -/
def exC7sum : ICUStructuredSummary :=
  ⟨[⟨"2-month-old male", ["CS_7_0"]⟩, ⟨"Weight 4.1 kg", ["CS_7_1"]⟩],
   [⟨"Hepatic failure", ["N000001"]⟩, ⟨"Sepsis", ["N000002"]⟩],
   [], [], [], [], [], [], [],
   [⟨"PT 22.1", ["L000001"]⟩, ⟨"BUN 48", ["L000002"]⟩],
   [], []⟩

/-- Differential with five diagnoses of one evidence-backed support each
(three with a missing item, two without): 7 warnings, 0 errors, score 49,
not passed. -/
def exC7dx : DifferentialOutput :=
  ⟨[⟨"DxA", [⟨"s1", "v1", ["N000001"]⟩], [], ["m1"], [], "medium"⟩,
    ⟨"DxB", [⟨"s2", "v2", ["N000002"]⟩], [], ["m2"], [], "medium"⟩,
    ⟨"DxC", [⟨"s3", "v3", ["N000003"]⟩], [], ["m3"], [], "medium"⟩,
    ⟨"DxD", [⟨"s4", "v4", ["N000001"]⟩], [], [], [], "medium"⟩,
    ⟨"DxE", [⟨"s5", "v5", ["N000002"]⟩], [], [], [], "medium"⟩]⟩

/-- Claim C7 (counterexample): the combined quality gate returns zero errors
and score 69 ≥ 60, yet passed is false (it is the conjunction of the two
sub-gate passes, and the differential sub-gate scored 49 under its own
25/8-point penalties and bonus terms): passed is not determined by
"zero errors and score ≥ 60", and the score is not 100 minus fixed
per-error/per-warning penalties. -/
theorem C7_counterexample :
    (evaluate_combined_quality exC7sum exC7dx).errors = [] ∧
    (evaluate_combined_quality exC7sum exC7dx).score = 69 ∧
    (60 : Int) ≤ (evaluate_combined_quality exC7sum exC7dx).score ∧
    (evaluate_combined_quality exC7sum exC7dx).passed = false := by
  have hsum : evaluate_summary_quality exC7sum = ⟨true, 100, [], []⟩ := by decide
  have hbonus : dxQualityBonus exC7dx = 5 := by
    unfold dxQualityBonus
    have h1 : (exC7dx.differential.map (fun dx => dx.support.length)).sum = 5 := by decide
    have h2 : (exC7dx.differential.map (fun dx => dx.missing.length)).sum = 3 := by decide
    have h3 : exC7dx.differential.length = 5 := by decide
    rw [h1, h2, h3]
    norm_num [round1]
  have hW : (dxQualityWarnings exC7dx).length = 7 := by decide
  have hE : dxQualityErrors exC7dx = [] := by decide
  have hdx : evaluate_differential_quality exC7dx =
      ⟨false, 49, dxQualityWarnings exC7dx, []⟩ := by
    unfold evaluate_differential_quality
    rw [if_neg (by decide), hbonus, hW, hE]
    norm_num [clamp0100]
  have hcomb : evaluate_combined_quality exC7sum exC7dx =
      ⟨false, 69,
        (dxQualityWarnings exC7dx).map (fun w => "[Differential] " ++ w), []⟩ := by
    unfold evaluate_combined_quality
    rw [hsum, hdx]
    norm_num [pyIntOfRat]
  rw [hcomb]
  refine ⟨rfl, rfl, by norm_num, rfl⟩

/-- Summary with exactly two warnings (1 bullet, 0 key labs) and no errors,
realizing the 0-error/2-warning scoring instance quoted by the claim. -/
def exC7sum2 : ICUStructuredSummary :=
  ⟨[], [⟨"Hepatic failure", ["N000001"]⟩], [], [], [], [], [], [], [], [], [], []⟩

/-- Claim C7 (amended): the summary gate alone follows the claimed arithmetic:
score = clamp(100 − 20·errors − 10·warnings) and passed iff zero errors and
score ≥ 60, and 0 errors with 2 warnings give score 80, passed. The
differential gate instead subtracts 25 per error and 8 per warning and adds
up to 15 bonus points, and the combined gate averages the two scores
(0.4/0.6 weights) while taking passed as the conjunction of the sub-gate
passes, so a combined result can have zero errors and score ≥ 60 without
passing. -/
theorem C7_amended :
    (∀ s : ICUStructuredSummary,
      (evaluate_summary_quality s).score =
        max 0 (min 100 (100 - 20 * ((evaluate_summary_quality s).errors.length : Int) -
          10 * ((evaluate_summary_quality s).warnings.length : Int))) ∧
      (evaluate_summary_quality s).passed =
        (((evaluate_summary_quality s).errors.length == 0) &&
          decide ((60 : Int) ≤ (evaluate_summary_quality s).score))) ∧
    (∀ (s : ICUStructuredSummary) (d : DifferentialOutput),
      (evaluate_combined_quality s d).passed =
        ((evaluate_summary_quality s).passed && (evaluate_differential_quality d).passed)) ∧
    (evaluate_summary_quality exC7sum2).score = 80 ∧
    (evaluate_summary_quality exC7sum2).passed = true :=
  ⟨fun _ => ⟨rfl, rfl⟩, fun _ _ => rfl, by decide, by decide⟩

/-! ## retrieve.HybridRetriever.hybrid_search -/

/-- retrieve.RetrievalResult. -/
structure RetrievalResult where
  evidence_id : String
  score : ℚ
  text : String
deriving DecidableEq

/-- The 1e-9 guard added to every normalization denominator. -/
def eps9 : ℚ := 1 / 1000000000

/-- Maximum of a score array (numpy max; the sources only call it on
non-empty arrays, the nil value is junk). -/
def listMaxQ : List ℚ → ℚ
  | [] => 0
  | a :: t => t.foldl max a

/-- Minimum of a score array. -/
def listMinQ : List ℚ → ℚ
  | [] => 0
  | a :: t => t.foldl min a

/-- BM25 score normalization (retrieve.py line 51): divide by max + 1e-9. -/
def bmNormalize (raw : List ℚ) : List ℚ :=
  raw.map (fun s => s / (listMaxQ raw + eps9))

/-- Vector score normalization (retrieve.py line 60): min-max within the
candidate set, with the 1e-9 guard. -/
def vecNormalize (raw : List ℚ) : List ℚ :=
  raw.map (fun s => (s - listMinQ raw) / ((listMaxQ raw - listMinQ raw) + eps9))

/-- Python dict update combined[i] = combined.get(i, 0.0) + v on an
insertion-ordered association list. -/
def updAdd : List (Nat × ℚ) → Nat → ℚ → List (Nat × ℚ)
  | [], k, v => [(k, v)]
  | (k0, v0) :: t, k, v =>
    if k0 = k then (k0, v0 + v) :: t else (k0, v0) :: updAdd t k v

/-- Fusion loops of hybrid_search: BM25 contributions (0.55 weight, only for
positive normalized scores) in index order, then vector contributions (0.45
weight, skipping the -1 padding indices) in candidate order. -/
def buildCombined (bm : List ℚ) (vec : List (Int × ℚ)) : List (Nat × ℚ) :=
  vec.foldl
    (fun acc p => if p.1 < 0 then acc else updAdd acc p.1.toNat (0.45 * p.2))
    ((bm.enum).foldl
      (fun acc p => if 0 < p.2 then updAdd acc p.1 (0.55 * p.2) else acc) [])

/-- Comparator of sorted(combined.items(), key=score, reverse=True); the
Lean insertion sort with this relation is exactly the stable descending
sort Python performs. -/
def scoreOrd (a b : Nat × ℚ) : Prop :=
  b.2 ≤ a.2

instance : DecidableRel scoreOrd :=
  fun a b => inferInstanceAs (Decidable (b.2 ≤ a.2))

instance : IsTotal (Nat × ℚ) scoreOrd :=
  ⟨fun a b => le_total b.2 a.2⟩

instance : IsTrans (Nat × ℚ) scoreOrd :=
  ⟨fun _ _ _ h1 h2 => le_trans h2 h1⟩

/-- Ranked (doc index, fused score) list of hybrid_search: stable descending
sort of the fused dict, truncated to top k. -/
def hybridRanked (bmRaw : List ℚ) (vecCand : List (Int × ℚ)) (k : Nat) :
    List (Nat × ℚ) :=
  (List.insertionSort scoreOrd
    (buildCombined (bmNormalize bmRaw)
      ((vecCand.map Prod.fst).zip (vecNormalize (vecCand.map Prod.snd))))).take k

/-- Raw text lookup backing RetrievalResult.text (rec.get("raw_text", "")). -/
def lookupText (store : List (String × String)) (eid : String) : String :=
  match store.lookup eid with
  | some t => t
  | none => ""

/-- retrieve.HybridRetriever.hybrid_search, over a corpus presented as the
doc_ids list aligned with the BM25 score array, the evidence store, and the
FAISS candidate list (index, similarity) produced for the query. -/
def hybrid_search (docIds : List String) (store : List (String × String))
    (bmRaw : List ℚ) (vecCand : List (Int × ℚ)) (k : Nat) : List RetrievalResult :=
  (hybridRanked bmRaw vecCand k).map
    (fun p => ⟨docIds.getD p.1 "", p.2, lookupText store (docIds.getD p.1 "")⟩)

/-! ## Key invariants of the fused dict -/

lemma updAdd_keys (l : List (Nat × ℚ)) (k : Nat) (v : ℚ) :
    (updAdd l k v).map Prod.fst =
      if k ∈ l.map Prod.fst then l.map Prod.fst else l.map Prod.fst ++ [k] := by
  induction l with
  | nil => simp [updAdd]
  | cons p t ih =>
    by_cases hk : p.1 = k
    · simp [updAdd, hk]
    · by_cases hmem : k ∈ t.map Prod.fst
      · simp [updAdd, hk, ih, hmem, Ne.symm hk]
      · simp [updAdd, hk, ih, hmem, Ne.symm hk]

lemma updAdd_nodupKeys {l : List (Nat × ℚ)} (h : (l.map Prod.fst).Nodup)
    (k : Nat) (v : ℚ) : ((updAdd l k v).map Prod.fst).Nodup := by
  rw [updAdd_keys]
  by_cases hmem : k ∈ l.map Prod.fst
  · simpa [hmem] using h
  · simp [hmem, List.nodup_append, h]

lemma updAdd_keysBound {l : List (Nat × ℚ)} {B : Nat}
    (h : ∀ i ∈ l.map Prod.fst, i < B) {k : Nat} (hk : k < B) (v : ℚ) :
    ∀ i ∈ (updAdd l k v).map Prod.fst, i < B := by
  rw [updAdd_keys]
  by_cases hmem : k ∈ l.map Prod.fst
  · simpa [hmem] using h
  · intro i hi
    rw [if_neg hmem] at hi
    rcases List.mem_append.mp hi with hi2 | hi2
    · exact h i hi2
    · rw [List.mem_singleton.mp hi2]
      exact hk

lemma bmFold_nodupKeys (xs : List (Nat × ℚ)) :
    ∀ acc : List (Nat × ℚ), (acc.map Prod.fst).Nodup →
      ((xs.foldl (fun acc p => if 0 < p.2 then updAdd acc p.1 (0.55 * p.2) else acc)
        acc).map Prod.fst).Nodup := by
  induction xs with
  | nil => intro acc h; simpa using h
  | cons p t ih =>
    intro acc h
    rw [List.foldl_cons]
    by_cases hp : 0 < p.2
    · exact ih _ (by simp [hp, updAdd_nodupKeys h])
    · exact ih _ (by simp [hp, h])

lemma vecFold_nodupKeys (xs : List (Int × ℚ)) :
    ∀ acc : List (Nat × ℚ), (acc.map Prod.fst).Nodup →
      ((xs.foldl (fun acc p => if p.1 < 0 then acc else updAdd acc p.1.toNat (0.45 * p.2))
        acc).map Prod.fst).Nodup := by
  induction xs with
  | nil => intro acc h; simpa using h
  | cons p t ih =>
    intro acc h
    rw [List.foldl_cons]
    by_cases hp : p.1 < 0
    · exact ih _ (by simp [hp, h])
    · exact ih _ (by simp [hp, updAdd_nodupKeys h])

lemma bmFold_keysBound (B : Nat) (xs : List (Nat × ℚ)) (hxs : ∀ p ∈ xs, p.1 < B) :
    ∀ acc : List (Nat × ℚ), (∀ i ∈ acc.map Prod.fst, i < B) →
      ∀ i ∈ ((xs.foldl (fun acc p => if 0 < p.2 then updAdd acc p.1 (0.55 * p.2) else acc)
        acc).map Prod.fst), i < B := by
  induction xs with
  | nil => intro acc h; simpa using h
  | cons p t ih =>
    intro acc h
    rw [List.foldl_cons]
    have hp1 : p.1 < B := hxs p (by simp)
    have ht : ∀ q ∈ t, q.1 < B := fun q hq => hxs q (by simp [hq])
    by_cases hp : 0 < p.2
    · exact ih ht _ (by simp only [hp, if_true]; exact updAdd_keysBound h hp1 _)
    · exact ih ht _ (by simpa [hp] using h)

lemma vecFold_keysBound (B : Nat) (xs : List (Int × ℚ))
    (hxs : ∀ p ∈ xs, ¬(p.1 < 0) → p.1.toNat < B) :
    ∀ acc : List (Nat × ℚ), (∀ i ∈ acc.map Prod.fst, i < B) →
      ∀ i ∈ ((xs.foldl (fun acc p => if p.1 < 0 then acc else updAdd acc p.1.toNat (0.45 * p.2))
        acc).map Prod.fst), i < B := by
  induction xs with
  | nil => intro acc h; simpa using h
  | cons p t ih =>
    intro acc h
    rw [List.foldl_cons]
    have ht : ∀ q ∈ t, ¬(q.1 < 0) → q.1.toNat < B := fun q hq => hxs q (by simp [hq])
    by_cases hp : p.1 < 0
    · exact ih ht _ (by simpa [hp] using h)
    · exact ih ht _ (by
        simp only [hp, if_false]
        exact updAdd_keysBound h (hxs p (by simp) hp) _)

lemma buildCombined_nodupKeys (bm : List ℚ) (vec : List (Int × ℚ)) :
    ((buildCombined bm vec).map Prod.fst).Nodup := by
  unfold buildCombined
  exact vecFold_nodupKeys vec _ (bmFold_nodupKeys bm.enum [] (by simp))

lemma buildCombined_keysBound (B : Nat) (bm : List ℚ) (vec : List (Int × ℚ))
    (hbm : bm.length ≤ B) (hvec : ∀ p ∈ vec, ¬(p.1 < 0) → p.1.toNat < B) :
    ∀ i ∈ (buildCombined bm vec).map Prod.fst, i < B := by
  unfold buildCombined
  refine vecFold_keysBound B vec hvec _ ?_
  refine bmFold_keysBound B bm.enum ?_ [] (by simp)
  intro p hp
  obtain ⟨i, s⟩ := p
  have := List.fst_lt_of_mem_enum hp
  omega

/-! ## Claim C2 -/

/-- Claim C2 (amended): hybrid_search returns at most k results, ordered by
fused score in non-increasing order (ties keep original dict order under the
stable sort, so the order is not strictly descending in general), and the
ranked doc indices are pairwise distinct, so the evidence ids are pairwise
distinct whenever doc_ids holds no duplicates and the BM25 array and FAISS
candidate indices stay within the corpus. -/
theorem C2_amended (docIds : List String) (store : List (String × String))
    (bmRaw : List ℚ) (vecCand : List (Int × ℚ)) (k : Nat) :
    (hybrid_search docIds store bmRaw vecCand k).length ≤ k ∧
    (hybrid_search docIds store bmRaw vecCand k).Pairwise
      (fun a b => b.score ≤ a.score) ∧
    (docIds.Nodup → bmRaw.length ≤ docIds.length →
      (∀ p ∈ vecCand, ¬(p.1 < 0) → p.1.toNat < docIds.length) →
      ((hybrid_search docIds store bmRaw vecCand k).map
        (fun r => r.evidence_id)).Nodup) := by
  refine ⟨?_, ?_, ?_⟩
  · rw [hybrid_search, List.length_map]
    exact List.length_take_le k _
  · rw [hybrid_search]
    refine List.pairwise_map.mpr ?_
    refine List.Pairwise.sublist (List.take_sublist k _) ?_
    exact List.sorted_insertionSort scoreOrd _
  · intro hnd hbm hvec
    have hkeys : ((hybridRanked bmRaw vecCand k).map Prod.fst).Nodup := by
      rw [hybridRanked, List.map_take]
      refine List.Sublist.nodup (List.take_sublist k _) ?_
      refine (((List.perm_insertionSort scoreOrd _).map Prod.fst).nodup_iff).mpr ?_
      exact buildCombined_nodupKeys _ _
    have hbound : ∀ i ∈ (hybridRanked bmRaw vecCand k).map Prod.fst, i < docIds.length := by
      intro i hi
      rw [hybridRanked, List.map_take] at hi
      have hi2 := List.take_subset k _ hi
      have hi3 := ((List.perm_insertionSort scoreOrd _).map Prod.fst).mem_iff.mp hi2
      refine buildCombined_keysBound docIds.length _ _ ?_ ?_ i hi3
      · simpa [bmNormalize] using hbm
      · intro p hp hneg
        have hmem := (List.of_mem_zip hp).1
        obtain ⟨q, hq, hq1⟩ := List.mem_map.mp hmem
        rw [← hq1]
        exact hvec q hq (hq1 ▸ hneg)
    rw [hybrid_search, List.map_map]
    show ((hybridRanked bmRaw vecCand k).map (fun p => docIds.getD p.1 "")).Nodup
    have hcomp : (hybridRanked bmRaw vecCand k).map (fun p => docIds.getD p.1 "") =
        ((hybridRanked bmRaw vecCand k).map Prod.fst).map (fun i => docIds.getD i "") := by
      rw [List.map_map]
      rfl
    rw [hcomp]
    refine List.Nodup.map_on ?_ hkeys
    intro x hx y hy hxy
    have hxb := hbound x hx
    have hyb := hbound y hy
    rw [List.getD_eq_getElem docIds "" hxb, List.getD_eq_getElem docIds "" hyb] at hxy
    exact hnd.getElem_inj_iff.mp hxy

/-- Store for the hybrid-search examples: two docs with identical text. -/
def exC2store : List (String × String) :=
  [("E1", "FiO2 76 40"), ("E2", "FiO2 76 40")]

lemma exC2_eval :
    hybrid_search ["E1", "E2"] exC2store [0, 0] [((0 : Int), 3), ((1 : Int), 3)] 2 =
      [⟨"E1", 0, "FiO2 76 40"⟩, ⟨"E2", 0, "FiO2 76 40"⟩] := by
  unfold hybrid_search hybridRanked buildCombined bmNormalize vecNormalize
  unfold listMaxQ listMinQ lookupText exC2store
  norm_num [updAdd, List.insertionSort, List.orderedInsert, scoreOrd,
    List.enum, List.enumFrom, List.lookup]
  rfl

/-- Claim C2 (counterexample): a corpus of two identical documents and a
query matching no BM25 token gives both candidates the same fused score, and
the stable descending sort returns them in original order with equal scores:
the result list is not strictly descending (its length and id-uniqueness
clauses do hold here). -/
theorem C2_counterexample :
    ¬ ((hybrid_search ["E1", "E2"] exC2store [0, 0] [((0 : Int), 3), ((1 : Int), 3)] 2).length ≤ 2 ∧
       (hybrid_search ["E1", "E2"] exC2store [0, 0] [((0 : Int), 3), ((1 : Int), 3)] 2).Pairwise
         (fun a b => b.score < a.score) ∧
       ((hybrid_search ["E1", "E2"] exC2store [0, 0] [((0 : Int), 3), ((1 : Int), 3)] 2).map
         (fun r => r.evidence_id)).Nodup) := by
  rw [exC2_eval]
  rintro ⟨-, hpair, -⟩
  rcases List.pairwise_cons.mp hpair with ⟨h1, -⟩
  exact absurd (h1 ⟨"E2", 0, "FiO2 76 40"⟩ (by simp)) (lt_irrefl (0 : ℚ))

/-- Witness for C2 (amended) at the two-document corpus. -/
theorem C2_witness :
    (hybrid_search ["E1", "E2"] exC2store [0, 0] [((0 : Int), 3), ((1 : Int), 3)] 2).length ≤ 2 ∧
    (hybrid_search ["E1", "E2"] exC2store [0, 0] [((0 : Int), 3), ((1 : Int), 3)] 2).Pairwise
      (fun a b => b.score ≤ a.score) ∧
    ((hybrid_search ["E1", "E2"] exC2store [0, 0] [((0 : Int), 3), ((1 : Int), 3)] 2).map
      (fun r => r.evidence_id)).Nodup :=
  ⟨(C2_amended ["E1", "E2"] exC2store [0, 0] [((0 : Int), 3), ((1 : Int), 3)] 2).1,
   (C2_amended ["E1", "E2"] exC2store [0, 0] [((0 : Int), 3), ((1 : Int), 3)] 2).2.1,
   (C2_amended ["E1", "E2"] exC2store [0, 0] [((0 : Int), 3), ((1 : Int), 3)] 2).2.2
     (by decide) (by decide) (by decide)⟩

/-! ## Claim C8 -/

lemma le_foldl_max (t : List ℚ) : ∀ a : ℚ, a ≤ t.foldl max a := by
  induction t with
  | nil => intro a; exact le_refl a
  | cons b t ih => intro a; exact le_trans (le_max_left a b) (ih (max a b))

lemma mem_le_foldl_max (t : List ℚ) : ∀ (a s : ℚ), s ∈ t → s ≤ t.foldl max a := by
  induction t with
  | nil => intro a s hs; exact absurd hs (List.not_mem_nil s)
  | cons b t ih =>
    intro a s hs
    rcases List.mem_cons.mp hs with rfl | hs2
    · exact le_trans (le_max_right a s) (le_foldl_max t (max a s))
    · exact ih (max a b) s hs2

lemma le_listMaxQ {l : List ℚ} {s : ℚ} (hs : s ∈ l) : s ≤ listMaxQ l := by
  cases l with
  | nil => exact absurd hs (List.not_mem_nil s)
  | cons a t =>
    rcases List.mem_cons.mp hs with rfl | hs2
    · exact le_foldl_max t s
    · exact mem_le_foldl_max t a s hs2

/-- Claim C8 (counterexample): lexical normalization is not min-max. For raw
BM25 scores [1, 2] the code divides by max + 1e-9, so the minimum raw score
maps to 1/(2 + 1e-9) which is not 0, and the maximum maps to 2/(2 + 1e-9)
which is not 1. -/
theorem C8_counterexample :
    ¬ ((∀ x ∈ bmNormalize [1, 2], 0 ≤ x ∧ x ≤ 1) ∧
       (bmNormalize [1, 2]).getD 0 0 = 0 ∧ (bmNormalize [1, 2]).getD 1 0 = 1) := by
  have hmax : listMaxQ [1, 2] = max 1 2 := rfl
  rintro ⟨-, h0, -⟩
  rw [bmNormalize, hmax, max_eq_right (by norm_num : (1 : ℚ) ≤ 2)] at h0
  simp [eps9] at h0
  norm_num at h0

/-- Claim C8 (amended): the lexical scores are max-normalized, each raw score
divided by max + 1e-9; for a non-empty array of non-negative raw scores every
normalized value lies in [0, 1) — the minimum raw score maps to 0 only when it
is itself 0, and the maximum maps strictly below 1. -/
theorem C8_amended (raw : List ℚ) (hne : raw ≠ []) (hpos : ∀ s ∈ raw, 0 ≤ s) :
    bmNormalize raw = raw.map (fun s => s / (listMaxQ raw + eps9)) ∧
    ∀ x ∈ bmNormalize raw, 0 ≤ x ∧ x < 1 := by
  refine ⟨rfl, ?_⟩
  intro x hx
  obtain ⟨s, hs, rfl⟩ := List.mem_map.mp hx
  have hsm : s ≤ listMaxQ raw := le_listMaxQ hs
  have heps : (0 : ℚ) < eps9 := by norm_num [eps9]
  have hm0 : 0 ≤ listMaxQ raw := by
    obtain ⟨a, ha⟩ := List.exists_mem_of_ne_nil raw hne
    exact le_trans (hpos a ha) (le_listMaxQ ha)
  have hden : 0 < listMaxQ raw + eps9 := by linarith
  refine ⟨div_nonneg (hpos s hs) (le_of_lt hden), (div_lt_one hden).mpr (by linarith)⟩

/-- Witness for C8 (amended) at the raw score array [1, 2]. -/
theorem C8_witness :
    bmNormalize [1, 2] = [1, 2].map (fun s => s / (listMaxQ [1, 2] + eps9)) ∧
    ∀ x ∈ bmNormalize [1, 2], 0 ≤ x ∧ x < 1 :=
  C8_amended [1, 2] (by simp) (by
    intro s hs
    rcases List.mem_cons.mp hs with rfl | hs2
    · norm_num
    · rw [List.mem_singleton.mp hs2]
      norm_num)

/-! ## Evidence store build (scripts/build_evidence_store.py,
rag/index_build.build_evidence_corpus) and ingest.validate.ensure_unique_ids -/

/-- Minimal evidence record shape consumed by the store builders. -/
structure EvRec where
  evidence_id : String
  raw_text : String
deriving DecidableEq

/-- scripts/build_evidence_store.py: reads every evidence file in order and
appends every record to one list — no duplicate-id detection of any kind. -/
def build_evidence_store (files : List (List EvRec)) : List EvRec :=
  files.flatten

/-- Python dict assignment store[eid] = r: replace in place or append. -/
def storePut : List (String × EvRec) → String → EvRec → List (String × EvRec)
  | [], k, v => [(k, v)]
  | (k0, v0) :: t, k, v =>
    if k0 = k then (k0, v) :: t else (k0, v0) :: storePut t k v

/-- index_build.build_evidence_corpus: records without an id are skipped, the
docs list keeps every remaining record in order, and the store dict silently
overwrites on a repeated id. -/
def build_evidence_corpus (rows : List EvRec) : List EvRec × List (String × EvRec) :=
  rows.foldl
    (fun acc r =>
      if r.evidence_id == "" then acc
      else (acc.1 ++ [r], storePut acc.2 r.evidence_id r))
    ([], [])

/-- Seen-set loop of ingest.validate.ensure_unique_ids. -/
def ensureUniqueGo : List String → List EvRec → Except String Unit
  | _, [] => Except.ok ()
  | seen, r :: rest =>
    if r.evidence_id ∈ seen then
      Except.error ("Duplicate evidence_id found: " ++ r.evidence_id)
    else ensureUniqueGo (r.evidence_id :: seen) rest

/-- ingest.validate.ensure_unique_ids: raises ValueError on the first
repeated evidence id (used by the file-based pipeline.steps.ingest_all, but
by neither the CSV ingestion path nor the store-build scripts). -/
def ensure_unique_ids (records : List EvRec) : Except String Unit :=
  ensureUniqueGo [] records

/-! ## Claim C3 -/

/-- Two records carrying the same deterministic id CN_7_0, as produced when
two CSV rows share idx 7. -/
def exC3a : EvRec := ⟨"CN_7_0", "Patient reports abdominal pain for three days."⟩

/-- Second record with the colliding id. -/
def exC3b : EvRec := ⟨"CN_7_0", "Patient stable overnight, tolerating feeds."⟩

/-- Claim C3 (counterexample): an input that produces the duplicate evidence
id CN_7_0 is not a hard ingestion error anywhere on the store-build path:
build_evidence_store keeps both records, build_evidence_corpus keeps both
docs, and its store silently overwrites the first record with the second —
nothing halts the index build. -/
theorem C3_counterexample :
    build_evidence_store [[exC3a], [exC3b]] = [exC3a, exC3b] ∧
    (build_evidence_corpus [exC3a, exC3b]).1 = [exC3a, exC3b] ∧
    (build_evidence_corpus [exC3a, exC3b]).2 = [("CN_7_0", exC3b)] := by
  refine ⟨rfl, by decide, by decide⟩

lemma ensureGo_ok_iff (records : List EvRec) : ∀ seen : List String,
    (ensureUniqueGo seen records = Except.ok ()) ↔
      ((records.map (fun r => r.evidence_id)).Nodup ∧
        ∀ i ∈ records.map (fun r => r.evidence_id), i ∉ seen) := by
  induction records with
  | nil => intro seen; simp [ensureUniqueGo]
  | cons r rest ih =>
    intro seen
    by_cases hmem : r.evidence_id ∈ seen
    · rw [ensureUniqueGo, if_pos hmem]
      simp [hmem]
    · rw [ensureUniqueGo, if_neg hmem, ih (r.evidence_id :: seen)]
      simp only [List.map_cons, List.nodup_cons, List.mem_cons, not_or, forall_eq_or_imp]
      constructor
      · rintro ⟨hnd, hall⟩
        exact ⟨⟨fun hin => (hall _ hin).1 rfl, hnd⟩, hmem, fun i hi => (hall i hi).2⟩
      · rintro ⟨⟨hnin, hnd⟩, -, hall⟩
        exact ⟨hnd, fun i hi => ⟨fun heq => hnin (heq ▸ hi), hall i hi⟩⟩

/-- Claim C3 (amended): evidence-id uniqueness is enforced only by the
file-based ingestion path: ensure_unique_ids succeeds exactly when the ids
are pairwise distinct and errors otherwise (ingest_all runs it before
writing). The CSV-derived store-build path performs no duplicate check:
build_evidence_corpus keeps exactly the records with a non-empty id, never
failing, with a repeated id silently overwriting in the store. -/
theorem C3_amended :
    (∀ records : List EvRec,
      (ensure_unique_ids records = Except.ok ()) ↔
        (records.map (fun r => r.evidence_id)).Nodup) ∧
    (∀ rows : List EvRec,
      (build_evidence_corpus rows).1 =
        rows.filter (fun r => !(r.evidence_id == ""))) := by
  constructor
  · intro records
    rw [ensure_unique_ids, ensureGo_ok_iff records []]
    simp
  · intro rows
    have hgen : ∀ (rows : List EvRec) (acc : List EvRec × List (String × EvRec)),
        (rows.foldl
          (fun acc r =>
            if r.evidence_id == "" then acc
            else (acc.1 ++ [r], storePut acc.2 r.evidence_id r)) acc).1 =
          acc.1 ++ rows.filter (fun r => !(r.evidence_id == "")) := by
      intro rows
      induction rows with
      | nil => intro acc; simp
      | cons r rest ih =>
        intro acc
        rw [List.foldl_cons]
        by_cases hid : r.evidence_id == ""
        · rw [if_pos hid, ih, List.filter_cons, if_neg (by simp [hid])]
        · rw [if_neg hid, ih, List.filter_cons, if_pos (by simp [hid])]
          simp
    rw [build_evidence_corpus, hgen]
    simp

/-- Witness for C3 (amended): ensure_unique_ids accepts a duplicate-free pair
and the corpus build keeps both records. -/
theorem C3_witness :
    ((ensure_unique_ids [⟨"N000001", "a"⟩, ⟨"N000002", "b"⟩] = Except.ok ()) ↔
      (([⟨"N000001", "a"⟩, ⟨"N000002", "b"⟩] : List EvRec).map
        (fun r => r.evidence_id)).Nodup) ∧
    (build_evidence_corpus [exC3a, exC3b]).1 =
      [exC3a, exC3b].filter (fun r => !(r.evidence_id == "")) :=
  ⟨C3_amended.1 [⟨"N000001", "a"⟩, ⟨"N000002", "b"⟩], C3_amended.2 [exC3a, exC3b]⟩

/-! ## soap_retrieval.SOAPRetriever.filter_by_row -/

/-- Python str.split(sep) for a one-character separator, on char lists. -/
def splitOnChar (sep : Char) : List Char → List (List Char)
  | [] => [[]]
  | c :: t =>
    if c = sep then [] :: splitOnChar sep t
    else
      match splitOnChar sep t with
      | [] => [[c]]
      | h :: r => (c :: h) :: r

/-- Python int(str) over one underscore-separated id segment: optional sign
followed by digits; None models the ValueError branch. -/
def pyIntChars? (s : List Char) : Option Int :=
  match s with
  | [] => none
  | '-' :: ds =>
    if ds ≠ [] ∧ ds.all Char.isDigit then
      some (-(ds.foldl (fun a c => a * 10 + (c.toNat - 48)) 0 : Nat))
    else none
  | '+' :: ds =>
    if ds ≠ [] ∧ ds.all Char.isDigit then
      some ((ds.foldl (fun a c => a * 10 + (c.toNat - 48)) 0 : Nat))
    else none
  | ds =>
    if ds.all Char.isDigit then
      some ((ds.foldl (fun a c => a * 10 + (c.toNat - 48)) 0 : Nat))
    else none

/-- Keep test of SOAPRetriever.filter_by_row for one result: ids with at
least two underscore segments are kept iff the second segment parses to the
target row (ValueError drops the result), and ids without an underscore (the
legacy format) are always kept. -/
def keepForRow (eid : String) (row : Int) : Bool :=
  if 2 ≤ (splitOnChar '_' eid.data).length then
    match pyIntChars? ((splitOnChar '_' eid.data).getD 1 []) with
    | some n => n == row
    | none => false
  else true

/-- soap_retrieval.SOAPRetriever.filter_by_row. -/
def filter_by_row (results : List RetrievalResult) (row : Int) : List RetrievalResult :=
  results.filter (fun r => keepForRow r.evidence_id row)

/-- Row number encoded by an evidence id, per the claim's reading: the parsed
second underscore segment when there is one. -/
def rowEncoded (eid : String) : Option Int :=
  if 2 ≤ (splitOnChar '_' eid.data).length then
    pyIntChars? ((splitOnChar '_' eid.data).getD 1 [])
  else none

/-! ## Claim C4 -/

/-- Legacy-format retrieval result: its id has no underscore, so it encodes
no row number. -/
def exC4res : RetrievalResult :=
  ⟨"N000001", 1, "5-month-old male infant admitted to the ICU"⟩

/-- Claim C4 (counterexample): filtering for row 7 keeps the legacy result
N000001 even though its id does not encode row 7 (it encodes no row at all):
the filter does not keep exactly the results whose id encodes the target
row. -/
theorem C4_counterexample :
    filter_by_row [exC4res] 7 = [exC4res] ∧ rowEncoded "N000001" = none := by
  constructor
  · rfl
  · rfl

/-- Claim C4 (amended): filter_by_row keeps a result iff its id parses to the
target row in its second underscore segment, or has no underscore at all
(legacy ids pass unfiltered); in particular ids encoding a different row, or
an unparsable second segment, are always dropped, so no result encoding
another patient's row survives. -/
theorem C4_amended (results : List RetrievalResult) (row : Int) :
    (filter_by_row results row =
      results.filter (fun r =>
        (rowEncoded r.evidence_id == some row) ||
          ((splitOnChar '_' r.evidence_id.data).length < 2 : Bool))) ∧
    (∀ r ∈ filter_by_row results row, ∀ n, rowEncoded r.evidence_id = some n → n = row) := by
  have hkeep : ∀ eid : String, keepForRow eid row =
      ((rowEncoded eid == some row) ||
        ((splitOnChar '_' eid.data).length < 2 : Bool)) := by
    intro eid
    unfold keepForRow rowEncoded
    by_cases hlen : 2 ≤ (splitOnChar '_' eid.data).length
    · rw [if_pos hlen, if_pos hlen]
      cases hp : pyIntChars? ((splitOnChar '_' eid.data).getD 1 []) with
      | none => simp [hlen]
      | some n => simp [Nat.not_lt.mpr hlen]
    · rw [if_neg hlen, if_neg hlen]
      simp [Nat.lt_of_not_le hlen]
  constructor
  · unfold filter_by_row
    exact List.filter_congr (fun r _ => hkeep r.evidence_id)
  · intro r hr n hn
    have hmem := List.of_mem_filter hr
    rw [hkeep] at hmem
    rcases Bool.or_eq_true_iff.mp hmem with h | h
    · have := beq_iff_eq.mp h
      rw [hn] at this
      exact Option.some_inj.mp this
    · exfalso
      rw [rowEncoded] at hn
      rw [if_neg (by simpa using Nat.not_le.mpr (by simpa using h))] at hn
      exact Option.noConfusion hn

/-- Witness for C4 (amended) on a mixed result list: the CSV id for row 7 is
kept, the id for row 3 is dropped, the legacy id is kept. -/
theorem C4_witness :
    (filter_by_row [⟨"CN_7_0", 1, "note for row 7"⟩, ⟨"CN_3_0", 1, "note for row 3"⟩,
        exC4res] 7 =
      ([⟨"CN_7_0", 1, "note for row 7"⟩, ⟨"CN_3_0", 1, "note for row 3"⟩,
        exC4res] : List RetrievalResult).filter (fun r =>
          (rowEncoded r.evidence_id == some 7) ||
            ((splitOnChar '_' r.evidence_id.data).length < 2 : Bool))) ∧
    (∀ r ∈ filter_by_row [⟨"CN_7_0", 1, "note for row 7"⟩,
        ⟨"CN_3_0", 1, "note for row 3"⟩, exC4res] 7,
      ∀ n, rowEncoded r.evidence_id = some n → n = 7) :=
  C4_amended [⟨"CN_7_0", 1, "note for row 7"⟩, ⟨"CN_3_0", 1, "note for row 3"⟩, exC4res] 7

/-! ## llm.client (estimate_tokens, truncate_to_token_limit, generate)

Token arithmetic uses the configured chars_per_token = 3.5 and
max_prompt_tokens = 12000; the float products int(len/3.5), int(tokens*3.5),
int(est*0.7), int(est*0.6) and the 0.8*max_chars comparison are modelled by
the exact integer forms 2*len/7, 7*t/2, 7*e/10, 3*e/5 and 10*lb > 8*mc. -/

/-- client.estimate_tokens: int(len(text) / 3.5). -/
def estimate_tokens (text : List Char) : Nat :=
  2 * text.length / 7

/-- Configured prompt budget (SETTINGS.max_prompt_tokens). -/
def maxPromptTokens : Nat := 12000

/-- Python text[:k] where k may be negative (then it counts from the end,
clamped at zero). -/
def pySliceTo (l : List Char) (k : Int) : List Char :=
  if k < 0 then l.take ((l.length : Int) + k).toNat else l.take k.toNat

/-- Python text.rfind(needle) over the whole string, -1 when absent. -/
def rfindAll (l : List Char) (needle : List Char) : Int :=
  match rfindSub l needle 0 l.length with
  | some i => (i : Int)
  | none => -1

/-- client.truncate_to_token_limit: cut at max_chars - 50, back up to the
last newline or sentence break when it lies past 80% of the budget, and
append the truncation marker. -/
def truncate_to_token_limit (text : List Char) (maxTokens : Nat) : List Char :=
  if text.length ≤ 7 * maxTokens / 2 then text
  else
    (if 8 * (7 * maxTokens / 2 : Int) <
        10 * max (rfindAll (pySliceTo text ((7 * maxTokens / 2 : Int) - 50)) ['\n'])
          (rfindAll (pySliceTo text ((7 * maxTokens / 2 : Int) - 50)) ['.', ' ']) then
      pySliceTo (pySliceTo text ((7 * maxTokens / 2 : Int) - 50))
        (max (rfindAll (pySliceTo text ((7 * maxTokens / 2 : Int) - 50)) ['\n'])
          (rfindAll (pySliceTo text ((7 * maxTokens / 2 : Int) - 50)) ['.', ' ']) + 1)
    else pySliceTo text ((7 * maxTokens / 2 : Int) - 50)) ++
    "\n[... truncated due to context limit ...]".data

/-- Outcome of one POST to the inference backend, as seen by the retry loop. -/
inductive LLMOutcome where
  | ok (resp : String)
  | timedOut
  | httpError (msg : String)
deriving DecidableEq

/-- Failure surfaced to the caller when the loop re-raises. -/
inductive GenFailure where
  | timedOut
  | httpFail (msg : String)
deriving DecidableEq

/-- Context-length detection: "context" in str(e).lower() or "token" in
str(e).lower(). -/
def isCtxMsg (msg : String) : Bool :=
  strContains (lowerStr msg) "context" || strContains (lowerStr msg) "token"

/-- Retry loop of OllamaClient.generate over the per-attempt backend
outcomes (the list carries max_retries + 1 entries; "attempt < max_retries"
is exactly "the tail is non-empty"). Returns the prompt payload sent on each
attempt together with the final result; a timeout shrinks the prompt to a
70% token budget only above 4000 estimated tokens, a context-length HTTP
error always shrinks to 60%, any other HTTP error raises immediately, and
exhausted retries re-raise the last error. -/
def generateGo : List LLMOutcome → List Char → Nat →
    List (List Char) × Except GenFailure String
  | [], _, _ => ([], Except.error GenFailure.timedOut)
  | o :: rest, p, e =>
    match o with
    | LLMOutcome.ok resp => ([p], Except.ok resp)
    | LLMOutcome.timedOut =>
      if rest.isEmpty then ([p], Except.error GenFailure.timedOut)
      else if 4000 < e then
        (p :: (generateGo rest (truncate_to_token_limit p (7 * e / 10))
          (estimate_tokens (truncate_to_token_limit p (7 * e / 10)))).1,
         (generateGo rest (truncate_to_token_limit p (7 * e / 10))
          (estimate_tokens (truncate_to_token_limit p (7 * e / 10)))).2)
      else (p :: (generateGo rest p e).1, (generateGo rest p e).2)
    | LLMOutcome.httpError msg =>
      if isCtxMsg msg then
        (if rest.isEmpty then ([p], Except.error (GenFailure.httpFail msg))
         else
          (p :: (generateGo rest (truncate_to_token_limit p (3 * e / 5))
            (estimate_tokens (truncate_to_token_limit p (3 * e / 5)))).1,
           (generateGo rest (truncate_to_token_limit p (3 * e / 5))
            (estimate_tokens (truncate_to_token_limit p (3 * e / 5)))).2))
      else ([p], Except.error (GenFailure.httpFail msg))

/-- OllamaClient.generate: pre-truncate a prompt over the configured budget,
then run the retry loop. -/
def generate (outcomes : List LLMOutcome) (prompt : String) :
    List (List Char) × Except GenFailure String :=
  if maxPromptTokens < estimate_tokens prompt.data then
    generateGo outcomes (truncate_to_token_limit prompt.data maxPromptTokens)
      (estimate_tokens (truncate_to_token_limit prompt.data maxPromptTokens))
  else generateGo outcomes prompt.data (estimate_tokens prompt.data)

/-! ## Claim C6 -/

/-- Claim C6 (counterexample): a request timeout on a small prompt (estimated
3 tokens, well under the 4000-token shrink threshold) is retried with the
very same prompt payload — the orchestrator does not shrink the prompt on
every timeout, only above 4000 estimated tokens. -/
theorem C6_counterexample :
    generate [LLMOutcome.timedOut, LLMOutcome.ok "ok"] "short prompt" =
      (["short prompt".data, "short prompt".data], Except.ok "ok") := by
  rfl

/-- Claim C6 (amended): on a context-length HTTP error the prompt is always
shrunk to a 60% token budget before the retry; on a timeout it is shrunk to
a 70% budget only when the current estimate exceeds 4000 tokens and is
retried unchanged otherwise; at most one prompt is sent per configured
attempt; and a success is only reported when some attempt succeeded — an
exhausted retry budget surfaces the error to the caller. -/
theorem C6_amended :
    (∀ (p : List Char) (e : Nat) (rest : List LLMOutcome), rest ≠ [] → e ≤ 4000 →
      (generateGo (LLMOutcome.timedOut :: rest) p e).1 = p :: (generateGo rest p e).1) ∧
    (∀ (p : List Char) (e : Nat) (rest : List LLMOutcome), rest ≠ [] → 4000 < e →
      (generateGo (LLMOutcome.timedOut :: rest) p e).1 =
        p :: (generateGo rest (truncate_to_token_limit p (7 * e / 10))
          (estimate_tokens (truncate_to_token_limit p (7 * e / 10)))).1) ∧
    (∀ (p : List Char) (e : Nat) (msg : String) (rest : List LLMOutcome),
      isCtxMsg msg = true → rest ≠ [] →
      (generateGo (LLMOutcome.httpError msg :: rest) p e).1 =
        p :: (generateGo rest (truncate_to_token_limit p (3 * e / 5))
          (estimate_tokens (truncate_to_token_limit p (3 * e / 5)))).1) ∧
    (∀ (outs : List LLMOutcome) (p : List Char) (e : Nat),
      (generateGo outs p e).1.length ≤ outs.length) ∧
    (∀ (outs : List LLMOutcome) (p : List Char) (e : Nat),
      (generateGo outs p e).2.isOk = true →
        outs.any (fun o => match o with | LLMOutcome.ok _ => true | _ => false) = true) := by
  refine ⟨?_, ?_, ?_, ?_, ?_⟩
  · intro p e rest hne he
    cases rest with
    | nil => exact absurd rfl hne
    | cons o t => simp [generateGo, Nat.not_lt.mpr he]
  · intro p e rest hne he
    cases rest with
    | nil => exact absurd rfl hne
    | cons o t => simp [generateGo, he]
  · intro p e msg rest hctx hne
    cases rest with
    | nil => exact absurd rfl hne
    | cons o t => simp [generateGo, hctx]
  · intro outs
    induction outs with
    | nil => intro p e; simp [generateGo]
    | cons o rest ih =>
      intro p e
      cases o with
      | ok resp => simp [generateGo]
      | timedOut =>
        by_cases hre : rest.isEmpty
        · simp [generateGo, hre]
        · by_cases he : 4000 < e
          · simp only [generateGo, hre, if_false, he, if_true, List.length_cons]
            exact Nat.succ_le_succ (ih _ _)
          · simp only [generateGo, hre, if_false, he, if_true, List.length_cons]
            exact Nat.succ_le_succ (ih _ _)
      | httpError msg =>
        by_cases hctx : isCtxMsg msg
        · by_cases hre : rest.isEmpty
          · simp [generateGo, hctx, hre]
          · simp only [generateGo, hctx, if_true, hre, if_false, List.length_cons]
            exact Nat.succ_le_succ (ih _ _)
        · simp [generateGo, hctx]
  · intro outs
    induction outs with
    | nil =>
      intro p e h
      rw [generateGo] at h
      simp [Except.isOk, Except.toBool] at h
    | cons o rest ih =>
      intro p e h
      cases o with
      | ok resp => simp
      | timedOut =>
        rw [List.any_cons]
        refine Bool.or_eq_true_iff.mpr (Or.inr ?_)
        by_cases hre : rest.isEmpty
        · rw [generateGo] at h
          simp only [hre, if_true] at h
          simp [Except.isOk, Except.toBool] at h
        · by_cases he : 4000 < e
          · rw [generateGo] at h
            simp only [hre, if_false, he, if_true] at h
            exact ih _ _ h
          · rw [generateGo] at h
            simp only [hre, if_false, he, if_true] at h
            exact ih _ _ h
      | httpError msg =>
        rw [List.any_cons]
        refine Bool.or_eq_true_iff.mpr (Or.inr ?_)
        by_cases hctx : isCtxMsg msg
        · by_cases hre : rest.isEmpty
          · rw [generateGo] at h
            simp only [hctx, if_true, hre] at h
            simp [Except.isOk, Except.toBool] at h
          · rw [generateGo] at h
            simp only [hctx, if_true, hre, if_false] at h
            exact ih _ _ h
        · rw [generateGo] at h
          simp only [hctx, if_false] at h
          simp [Except.isOk, Except.toBool] at h

/-- Witness for C6 (amended): a context-length error on a 70-token prompt is
retried with the prompt truncated to the 42-token budget, and the unshrunk
small-prompt timeout retry of the first clause. -/
theorem C6_witness :
    (generateGo (LLMOutcome.timedOut :: [LLMOutcome.ok "ok"]) "short prompt".data 3).1 =
      "short prompt".data :: (generateGo [LLMOutcome.ok "ok"] "short prompt".data 3).1 ∧
    (generateGo (LLMOutcome.httpError "context length exceeded" :: [LLMOutcome.ok "ok"])
        "short prompt".data 70).1 =
      "short prompt".data ::
        (generateGo [LLMOutcome.ok "ok"]
          (truncate_to_token_limit "short prompt".data (3 * 70 / 5))
          (estimate_tokens (truncate_to_token_limit "short prompt".data (3 * 70 / 5)))).1 :=
  ⟨C6_amended.1 "short prompt".data 3 [LLMOutcome.ok "ok"] (by decide) (by decide),
   C6_amended.2.2.1 "short prompt".data 70 "context length exceeded" [LLMOutcome.ok "ok"]
     (by decide) (by decide)⟩

end ICU
